import Mathlib

/-!
Shallow embedding of the Forward+ render system (`RenderSystem.cpp`) of the
OpenGL-Renderer repository, together with theorems checking the
natural-language specification against it.

Modelling conventions:
* GPU calls are embedded as pure state transitions on an explicit pipeline
  state (`RState`), or as an emitted trace of submission events (`GEvent`)
  where a claim is about submission order.
* `float`/`double` arithmetic is embedded exactly over `ℚ`; the C library
  function `fmod` (truncated remainder, sign of the dividend) becomes `fmodQ`.
* Unsigned 32-bit arithmetic is embedded as `ℕ` with an explicit
  `% 4294967296` where an overflow is possible.
* Fallible initialization returns `Except String`, the `String` being the
  message logged before `std::abort()`.
-/

namespace RenderSystem

/-- Wrap-around of unsigned 32-bit arithmetic (`unsigned int` in the source). -/
def UINT32 : ℕ := 4294967296

/-- Embedding of `glm::vec4` with exact rational coordinates. -/
structure Vec4 where
  x : ℚ
  y : ℚ
  z : ℚ
  w : ℚ
deriving DecidableEq

/-- Embedding of the `PointLight` GPU struct: position (xyz + padding),
color (RGBA) and radius stored in the `w` slot of `RadiusAndPadding`,
exactly as `setupLightStorageBuffer` fills it. -/
structure PointLight where
  Position : Vec4
  Color : Vec4
  RadiusAndPadding : Vec4
deriving DecidableEq

/-- Modelled from the spec: `LIGHT_MIN_BOUNDS` and `LIGHT_MAX_BOUNDS` are the
fixed spatial bounds of the light volume. They are declared in
`RenderSystem.h`, which is not among the available source files, and the spec
does not give their numeric values, so they are kept as parameters
(one rational per axis, index `1` being the vertical axis). -/
structure LightBounds where
  minB : Fin 3 → ℚ
  maxB : Fin 3 → ℚ

/-- Truncation toward zero, as the C cast in `fmod` semantics. -/
def truncQ (q : ℚ) : ℤ := if 0 ≤ q then ⌊q⌋ else ⌈q⌉

/-- The C library `fmod`: `fmod a b = a - b * trunc (a / b)` (result carries
the sign of the dividend). -/
def fmodQ (a b : ℚ) : ℚ := a - b * truncQ (a / b)

/-- Mathematical modulo on `ℚ` (floor-based): for `b > 0` the result lies in
`[0, b)`.  Used to state the wrap the spec describes. -/
def qmod (a b : ℚ) : ℚ := a - b * ⌊a / b⌋

/-- The per-light vertical update performed by `RenderSystem::UpdateLights`
(line 360 of the source):
`light.Position.y = fmod((light.Position.y + (-4.5f * dt) - min + max), max) + min`
with `min = LIGHT_MIN_BOUNDS[1]` and `max = LIGHT_MAX_BOUNDS[1]`. -/
def updateLightY (B : LightBounds) (dt : ℚ) (y : ℚ) : ℚ :=
  fmodQ (y + (-(9/2) * dt) - B.minB 1 + B.maxB 1) (B.maxB 1) + B.minB 1

/-- The effect of one `UpdateLights` iteration on a single light: only the
`y` coordinate of the position is written. -/
def updateLight (B : LightBounds) (dt : ℚ) (l : PointLight) : PointLight :=
  { l with Position := { l.Position with y := updateLightY B dt l.Position.y } }

/-- Embedding of `RenderSystem::UpdateLights(dt)`: the mapped light buffer is
traversed and every light receives the vertical update. -/
def UpdateLights (B : LightBounds) (dt : ℚ) (lights : List PointLight) :
    List PointLight :=
  lights.map (updateLight B dt)

/-- The wrap the spec claims for the light animation, stated from its words:
after `N` updates of fixed step `dt` the vertical position is the initial
value minus `4.5 × dt × N`, wrapped by modulo arithmetic against the vertical
span `max - min` back into the vertical bounds. -/
def specWrapY (B : LightBounds) (dt : ℚ) (N : ℕ) (y0 : ℚ) : ℚ :=
  qmod (y0 - (9/2) * dt * (N : ℚ) - B.minB 1) (B.maxB 1 - B.minB 1) + B.minB 1

/-- Embedding of `RenderSystem::RandomPosition(dis, gen)`: given one uniform
sample `u i ∈ [0,1)` per axis, `position[i] = u i * (max i - min i) + min i`. -/
def RandomPosition (B : LightBounds) (u : Fin 3 → ℚ) : Fin 3 → ℚ :=
  fun i => u i * (B.maxB i - B.minB i) + B.minB i

/-- One slot as filled by the loop body of
`RenderSystem::setupLightStorageBuffer`: position from `RandomPosition` with
homogeneous coordinate `1`, color channels `1 + u` for fresh uniform samples
`u`, alpha `1`, and `RadiusAndPadding = (0, 0, 0, 30)`. -/
def mkLight (B : LightBounds) (posU colU : Fin 3 → ℚ) : PointLight :=
  { Position := ⟨RandomPosition B posU 0, RandomPosition B posU 1,
                 RandomPosition B posU 2, 1⟩,
    Color := ⟨1 + colU 0, 1 + colU 1, 1 + colU 2, 1⟩,
    RadiusAndPadding := ⟨0, 0, 0, 30⟩ }

/-- Embedding of the population loop of
`RenderSystem::setupLightStorageBuffer`: `n` is `MAX_NUM_LIGHTS`;
`posU k` and `colU k` are the uniform samples drawn for light `k`. -/
def setupLightStorageBuffer (B : LightBounds) (n : ℕ)
    (posU colU : ℕ → Fin 3 → ℚ) : List PointLight :=
  (List.range n).map (fun k => mkLight B (posU k) (colU k))

/-- Modelled from the spec: `MAX_NUM_LIGHTS` is declared in `RenderSystem.h`
(absent from the sources); the spec gives the capacity as `1024`. -/
def MAX_NUM_LIGHTS : ℕ := 1024

/-! ### Shader program cache -/

/-- A `<Program>` node of the configuration document: a program name and the
stage source paths that make it up. -/
structure ProgramDecl where
  name : String
  shaders : List String
deriving DecidableEq

/-- A compiled `GLShaderProgram`, as constructed by
`m_shaderCache.try_emplace(name, name, shaders)`. -/
structure GLShaderProgram where
  name : String
  shaders : List String
deriving DecidableEq

/-- Compilation of one declared program. -/
def compileProgram (d : ProgramDecl) : GLShaderProgram :=
  ⟨d.name, d.shaders⟩

/-- Embedding of `std::map::try_emplace`: the entry is inserted only when the
key is absent; an existing entry is never replaced. -/
def tryEmplace (cache : List (String × GLShaderProgram)) (k : String)
    (v : GLShaderProgram) : List (String × GLShaderProgram) :=
  if (cache.lookup k).isSome then cache else cache ++ [(k, v)]

/-- Embedding of the shader-compilation loop of `RenderSystem::Init`
(lines 51-61): every `<Program>` child is compiled and registered in the
cache with `try_emplace`. -/
def compilePrograms (decls : List ProgramDecl) :
    List (String × GLShaderProgram) :=
  decls.foldl (fun cache d => tryEmplace cache d.name (compileProgram d)) []

/-- The GL-side object store paired with the cache: `live` holds the shader
programs whose GPU objects currently exist. -/
structure CacheState where
  cache : List (String × GLShaderProgram)
  live : List GLShaderProgram
deriving DecidableEq

/-- `GLShaderProgram::DeleteProgram()`: the GPU object of the program is
destroyed (removed from the live store). -/
def DeleteProgram (live : List GLShaderProgram) (p : GLShaderProgram) :
    List GLShaderProgram :=
  live.filter (fun q => q != p)

/-- Embedding of `RenderSystem::Shutdown() const`: every cached program has
its GPU object deleted; the method is `const`, so the cache itself is left
untouched. -/
def Shutdown (st : CacheState) : CacheState :=
  { cache := st.cache,
    live := st.cache.foldl (fun lv e => DeleteProgram lv e.2) st.live }

/-- Cache lookup (`m_shaderCache.at(name)`); `none` is the not-found
outcome. -/
def Get (cache : List (String × GLShaderProgram)) (name : String) :
    Option GLShaderProgram :=
  cache.lookup name

/-! ### Pipeline state machine -/

/-- The viewport configuration read from the `Renderer` node attributes. -/
structure Config where
  width : ℕ
  height : ℕ

/-- The camera interface used by the pipeline; `M` is the (otherwise opaque)
type of matrices. -/
structure Camera (M : Type) where
  getProjMatrix : ℕ → ℕ → M
  getViewMatrix : M

/-- The per-frame report of the input collaborator
(`Input::ShouldResize` / `GetWidth` / `GetHeight`). -/
structure UpdateInput where
  shouldResize : Bool
  newW : ℕ
  newH : ℕ

/-- The pipeline state tracked by the embedding: viewport dimensions,
tile-grid dimensions, projection matrix, the two halves of the shared
view/projection uniform buffer, the rasterizer viewport, the dimensions of
the two framebuffers, the light-buffer handle and the light data. -/
structure RState (M : Type) where
  width : ℕ
  height : ℕ
  workGroupsX : ℕ
  workGroupsY : ℕ
  projMatrix : Option M
  uboProj : Option M
  uboView : Option M
  viewportW : ℕ
  viewportH : ℕ
  depthFBOW : ℕ
  depthFBOH : ℕ
  hdrFBOW : ℕ
  hdrFBOH : ℕ
  lightBuffer : ℕ
  lights : List PointLight

/-- The ambient GL facts `Init` depends on: whether `gladLoadGLLoader`
succeeds, and the buffer name `glGenBuffers` hands out for the light
buffer. -/
structure GLEnv where
  gladLoadOK : Bool
  genLightBuffer : ℕ

/-- The state built by a successful `RenderSystem::Init` (lines 23-85):
`m_width`/`m_height` from the config, tile-grid dimensions by the unsigned
arithmetic `(dim + dim % 8) / 8`, both framebuffers and the viewport at the
config dimensions, no matrices written yet (the UBO is allocated with null
data), and the freshly populated light buffer. -/
def initState (M : Type) (env : GLEnv) (initLights : List PointLight)
    (cfg : Config) : RState M :=
  { width := cfg.width,
    height := cfg.height,
    workGroupsX := ((cfg.width + cfg.width % 8) % UINT32) / 8,
    workGroupsY := ((cfg.height + cfg.height % 8) % UINT32) / 8,
    projMatrix := none,
    uboProj := none,
    uboView := none,
    viewportW := cfg.width,
    viewportH := cfg.height,
    depthFBOW := cfg.width,
    depthFBOH := cfg.height,
    hdrFBOW := cfg.width,
    hdrFBOH := cfg.height,
    lightBuffer := env.genLightBuffer,
    lights := initLights }

/-- Embedding of the fallible `RenderSystem::Init`: it aborts (with the
logged message) when the graphics context fails to load, and aborts inside
`setupLightStorageBuffer` when the light storage buffer was not created;
otherwise it yields the initialized state. -/
def Init (M : Type) (env : GLEnv) (initLights : List PointLight)
    (cfg : Config) : Except String (RState M) :=
  if env.gladLoadOK = false then
    Except.error "Failed to start GLAD."
  else if env.genLightBuffer = 0 then
    Except.error "Error: Forward+ light buffer has not been created."
  else
    Except.ok (initState M env initLights cfg)

/-- Embedding of `RenderSystem::InitView`: recomputes the projection matrix
for the current dimensions and writes it into the projection half of the
shared uniform buffer. -/
def InitView (M : Type) (cam : Camera M) (s : RState M) : RState M :=
  { s with projMatrix := some (cam.getProjMatrix s.width s.height),
           uboProj := some (cam.getProjMatrix s.width s.height) }

/-- Embedding of `RenderSystem::Update(camera, delta)` (lines 179-200).
On a resize report the new dimensions are stored, the projection matrix is
recomputed and written into the projection half of the UBO (via `InitView`),
the viewport is updated and the depth framebuffer is resized; the HDR
framebuffer is not touched.  The tile-grid dimensions are not recomputed.
In every call the view half of the UBO is rewritten and the lights are
animated. -/
def Update (M : Type) (B : LightBounds) (cam : Camera M) (dt : ℚ)
    (inp : UpdateInput) (s : RState M) : RState M :=
  let s1 : RState M :=
    if inp.shouldResize then
      { s with width := inp.newW,
               height := inp.newH,
               projMatrix := some (cam.getProjMatrix inp.newW inp.newH),
               uboProj := some (cam.getProjMatrix inp.newW inp.newH),
               viewportW := inp.newW,
               viewportH := inp.newH,
               depthFBOW := inp.newW,
               depthFBOH := inp.newH }
    else s
  { s1 with uboView := some cam.getViewMatrix,
            lights := UpdateLights B dt s1.lights }

/-- The states of the pipeline reachable from a successful `Init` by any
sequence of `Update` and `InitView` calls (`Render` and `Shutdown` write none
of the tracked fields). -/
inductive Reachable (M : Type) (env : GLEnv) (B : LightBounds) (cfg : Config) :
    RState M → Prop where
  | init (initLights : List PointLight) (s : RState M) :
      Init M env initLights cfg = Except.ok s → Reachable M env B cfg s
  | update (cam : Camera M) (dt : ℚ) (inp : UpdateInput) (s : RState M) :
      Reachable M env B cfg s → Reachable M env B cfg (Update M B cam dt inp s)
  | initView (cam : Camera M) (s : RState M) :
      Reachable M env B cfg s → Reachable M env B cfg (InitView M cam s)

/-- Ceiling division by the tile size 8, the quantity the spec names
`ceil(dim/8)`. -/
def ceilDiv8 (w : ℕ) : ℕ := (w + 7) / 8

/-! ### Render submission trace -/

/-- A PBR material of a render-list entry. -/
structure Material where
  Albedo : ℚ
  Metallic : ℚ
  Roughness : ℚ
  AO : ℚ
deriving DecidableEq

/-- One mesh draw unit of a model. -/
structure Mesh where
  indexCount : ℕ
deriving DecidableEq

/-- One render-list entry: a model transform handle, a material and the
meshes. -/
structure Model where
  modelMatrix : ℕ
  material : Material
  meshes : List Mesh
deriving DecidableEq

/-- One GL command submission, as issued by `RenderSystem::Render`.  Draw
calls are tagged with the `depthPass` flag of the `renderModels` invocation
that issued them and with the positions of the model and mesh in the render
list (the instrumentation the spec asks for). -/
inductive GEvent where
  | bindBuffer (target buffer : String)
  | bindProgram (name : String)
  | bindFramebuffer (name : String)
  | unbindFramebuffer
  | glClear (colorBit depthBit : Bool)
  | setUniform (uniform : String)
  | activeTexture (unit : ℕ)
  | bindTexture (texture : String)
  | bindBufferBase (slot : ℕ) (buffer : String)
  | bindVAO (vao : String)
  | drawElements (depthPass : Bool) (modelIdx meshIdx : ℕ)
  | dispatchCompute (x y z : ℕ)
  | skyboxDraw
  | drawArraysQuad
deriving DecidableEq

/-- Whether an event is a draw submitted by the depth prepass. -/
def GEvent.isDepthDraw : GEvent → Bool
  | GEvent.drawElements true _ _ => true
  | _ => false

/-- Whether an event is a draw submitted by the shading pass. -/
def GEvent.isShadingDraw : GEvent → Bool
  | GEvent.drawElements false _ _ => true
  | _ => false

/-- Whether an event is the light-culling compute dispatch. -/
def GEvent.isDispatch : GEvent → Bool
  | GEvent.dispatchCompute _ _ _ => true
  | _ => false

/-- Whether an event sets a uniform. -/
def GEvent.isSetUniform : GEvent → Bool
  | GEvent.setUniform _ => true
  | _ => false

/-- The submissions of the mesh loop body of `RenderSystem::renderModels`
(lines 209-221): outside the depth pass the four material uniforms are set,
then the VAO is bound, the mesh is drawn and texture unit 0 is unbound. -/
def renderMeshEvents (depthPass : Bool) (modelIdx meshIdx : ℕ) : List GEvent :=
  (if depthPass then []
   else [GEvent.setUniform "albedo", GEvent.setUniform "metallic",
         GEvent.setUniform "ao", GEvent.setUniform "roughness"]) ++
  [GEvent.bindVAO "mesh", GEvent.drawElements depthPass modelIdx meshIdx,
   GEvent.bindTexture "0"]

/-- The submissions for one render-list entry: the model transform uniform,
then the mesh loop. -/
def renderModelEvents (modelIdx : ℕ) (m : Model) (depthPass : Bool) :
    List GEvent :=
  GEvent.setUniform "modelMatrix" ::
    (m.meshes.enum).flatMap (fun q => renderMeshEvents depthPass modelIdx q.1)

/-- Embedding of `RenderSystem::renderModels(shader, renderList, depthPass)`
as the trace of submissions it issues over the whole render list. -/
def renderModels (renderList : List Model) (depthPass : Bool) : List GEvent :=
  (renderList.enum).flatMap (fun p => renderModelEvents p.1 p.2 depthPass)

/-- Every submission of `RenderSystem::Render` (lines 95-168) up to and
excluding the compute dispatch: UBO bind, depth pass over the render list,
then the light-culling uniform and buffer setup. -/
def preCullEvents (renderList : List Model) : List GEvent :=
  [GEvent.bindBuffer "UNIFORM_BUFFER" "m_uboMatrices",
   GEvent.bindProgram "DepthPassShader",
   GEvent.bindFramebuffer "Depth FBO",
   GEvent.glClear false true] ++
  renderModels renderList true ++
  [GEvent.unbindFramebuffer,
   GEvent.bindProgram "LightCullShader",
   GEvent.setUniform "projection",
   GEvent.setUniform "view",
   GEvent.activeTexture 5,
   GEvent.setUniform "depthMap",
   GEvent.bindTexture "m_depthTexture",
   GEvent.bindBufferBase 0 "m_lightBuffer",
   GEvent.bindBufferBase 1 "m_visibleLightIndicesBuffer"]

/-- Every submission of `RenderSystem::Render` after the compute dispatch:
the shading pass into the HDR framebuffer, the skybox, and the post-process
pass onto the screen quad. -/
def postCullEvents (renderList : List Model) : List GEvent :=
  [GEvent.bindFramebuffer "HDR FBO",
   GEvent.glClear true true,
   GEvent.activeTexture 0,
   GEvent.bindTexture "irradianceMap",
   GEvent.bindProgram "PBRShader",
   GEvent.setUniform "irradianceMap",
   GEvent.setUniform "wireframe",
   GEvent.setUniform "viewPos",
   GEvent.setUniform "sunDirection",
   GEvent.setUniform "sunColor"] ++
  renderModels renderList false ++
  [GEvent.skyboxDraw,
   GEvent.bindFramebuffer "default",
   GEvent.bindProgram "PostProcessShader",
   GEvent.setUniform "vibranceAmount",
   GEvent.setUniform "vibranceCoefficient",
   GEvent.activeTexture 0,
   GEvent.bindTexture "m_hdrColorBufferTexture",
   GEvent.bindVAO "m_quadVAO",
   GEvent.drawArraysQuad]

/-- Embedding of `RenderSystem::Render(scene)` as the full, always-complete
trace of GL submissions of one frame, with the compute dispatch over the
stored tile grid in the middle. -/
def Render (wgX wgY : ℕ) (renderList : List Model) : List GEvent :=
  preCullEvents renderList ++
    GEvent.dispatchCompute wgX wgY 1 :: postCullEvents renderList

/-! ### Concrete instances used to evaluate the development -/

/-- Representative light bounds (per-axis minimum). -/
def demoBounds : LightBounds :=
  ⟨fun i => if i.val = 0 then -135 else if i.val = 1 then -20 else -60,
   fun i => if i.val = 0 then 135 else if i.val = 1 then 170 else 60⟩

/-- Light bounds whose vertical minimum is `0`. -/
def zeroMinBounds : LightBounds :=
  ⟨fun i => if i.val = 0 then -135 else if i.val = 1 then 0 else -60,
   fun i => if i.val = 0 then 135 else if i.val = 1 then 170 else 60⟩

/-- A light sitting just above the vertical minimum of `demoBounds`. -/
def demoLight : PointLight :=
  ⟨⟨3, -39/2, 5, 1⟩, ⟨3/2, 1, 1, 1⟩, ⟨0, 0, 0, 30⟩⟩

/-- A light inside `[0, 170)` vertically. -/
def midLight : PointLight :=
  ⟨⟨3, 5, 5, 1⟩, ⟨3/2, 1, 1, 1⟩, ⟨0, 0, 0, 30⟩⟩

/-- A one-mesh render-list entry. -/
def demoModel : Model := ⟨1, ⟨1/2, 1/3, 1/4, 1⟩, [⟨6⟩]⟩

/-- A render-list entry whose model failed to load: it owns no meshes. -/
def meshlessModel : Model := ⟨2, ⟨1/2, 1/3, 1/4, 1⟩, []⟩

/-- A camera over `ℕ`-coded matrices. -/
def demoCamera : Camera ℕ := ⟨fun w h => 1000 * w + h, 77⟩

/-- A 9×9 viewport configuration. -/
def cfg9 : Config := ⟨9, 9⟩

/-- A GL environment in which everything succeeds. -/
def envOK : GLEnv := ⟨true, 1⟩

/-- A GL environment in which the context fails to load. -/
def envNoGlad : GLEnv := ⟨false, 1⟩

/-- A GL environment in which the light buffer is not created. -/
def envNoBuffer : GLEnv := ⟨true, 0⟩

/-- A resize report to 16×12. -/
def demoResize : UpdateInput := ⟨true, 16, 12⟩

/-- A no-resize report. -/
def demoNoResize : UpdateInput := ⟨false, 0, 0⟩

/-- Two program declarations sharing the name `PBRShader`. -/
def demoProgA : ProgramDecl := ⟨"PBRShader", ["pbr1.vert", "pbr1.frag"]⟩

/-- The second declaration under the same name. -/
def demoProgB : ProgramDecl := ⟨"PBRShader", ["pbr2.vert", "pbr2.frag"]⟩

/-- Constant position samples. -/
def demoPosU : ℕ → Fin 3 → ℚ := fun _ _ => 1/2

/-- Constant color samples. -/
def demoColU : ℕ → Fin 3 → ℚ := fun _ _ => 1/4

/-- A one-entry cache state whose program object is live. -/
def demoCacheState : CacheState :=
  ⟨[("PBRShader", compileProgram demoProgA)], [compileProgram demoProgA]⟩

end RenderSystem

namespace RenderSystem

/-! ### Helper lemmas -/

/-- An affine image of `[0,1)` stays inside the segment. -/
theorem unit_affine_bounds {u lo hi : ℚ} (hlh : lo ≤ hi) (h0 : 0 ≤ u)
    (h1 : u < 1) : lo ≤ u * (hi - lo) + lo ∧ u * (hi - lo) + lo ≤ hi := by
  constructor
  · nlinarith
  · nlinarith

/-- `Update` never touches the tile-grid dimensions. -/
theorem Update_workGroups (M : Type) (B : LightBounds) (cam : Camera M)
    (dt : ℚ) (inp : UpdateInput) (s : RState M) :
    (Update M B cam dt inp s).workGroupsX = s.workGroupsX ∧
    (Update M B cam dt inp s).workGroupsY = s.workGroupsY := by
  cases hr : inp.shouldResize <;> simp [Update, hr]

/-- `InitView` never touches the tile-grid dimensions. -/
theorem InitView_workGroups (M : Type) (cam : Camera M) (s : RState M) :
    (InitView M cam s).workGroupsX = s.workGroupsX ∧
    (InitView M cam s).workGroupsY = s.workGroupsY := by
  exact ⟨rfl, rfl⟩

/-- The `ℕ` ceiling division by 8 agrees with the rational ceiling. -/
theorem ceilDiv8_eq_ceil (w : ℕ) : (ceilDiv8 w : ℤ) = ⌈(w : ℚ) / 8⌉ := by
  have h1 : 8 * ((w + 7) / 8) ≤ w + 7 := by omega
  have h2 : w ≤ 8 * ((w + 7) / 8) := by omega
  have h1q : (8 : ℚ) * ((w + 7) / 8 : ℕ) ≤ (w : ℚ) + 7 := by exact_mod_cast h1
  have h2q : (w : ℚ) ≤ 8 * ((w + 7) / 8 : ℕ) := by exact_mod_cast h2
  have hc : ((ceilDiv8 w : ℤ) : ℚ) = (((w + 7) / 8 : ℕ) : ℚ) := by
    rw [ceilDiv8]
    norm_cast
  symm
  rw [Int.ceil_eq_iff, hc]
  constructor
  · rw [lt_div_iff₀ (by norm_num : (0 : ℚ) < 8)]
    linarith [h1q]
  · rw [div_le_iff₀ (by norm_num : (0 : ℚ) < 8)]
    linarith [h2q]

/-- For a positive modulus, `qmod` lands in `[0, b)`. -/
theorem qmod_nonneg_lt (a b : ℚ) (hb : 0 < b) : 0 ≤ qmod a b ∧ qmod a b < b := by
  have hfl : ((⌊a / b⌋ : ℤ) : ℚ) ≤ a / b := Int.floor_le (a / b)
  have hfu : a / b < ((⌊a / b⌋ : ℤ) : ℚ) + 1 := Int.lt_floor_add_one (a / b)
  have hba : b * (a / b) = a := by
    field_simp
  rw [qmod]
  constructor
  · nlinarith [mul_le_mul_of_nonneg_left hfl (le_of_lt hb)]
  · nlinarith [mul_lt_mul_of_pos_left hfu hb]

/-- `qmod` ignores integer multiples of the modulus. -/
theorem qmod_add_int_mul (a b : ℚ) (k : ℤ) (hb : b ≠ 0) :
    qmod (a + b * (k : ℚ)) b = qmod a b := by
  rw [qmod, qmod]
  have h : (a + b * (k : ℚ)) / b = a / b + (k : ℚ) := by
    field_simp
    ring
  rw [h, Int.floor_add_int]
  push_cast
  ring

/-- `qmod` ignores one added modulus. -/
theorem qmod_add_self (x b : ℚ) (hb : b ≠ 0) : qmod (x + b) b = qmod x b := by
  have h := qmod_add_int_mul x b 1 hb
  push_cast at h
  simpa using h

/-- Reducing before subtracting does not change the residue. -/
theorem qmod_sub_qmod (a b c : ℚ) (hb : b ≠ 0) :
    qmod (qmod a b - c) b = qmod (a - c) b := by
  have h : qmod a b - c = (a - c) + b * ((-⌊a / b⌋ : ℤ) : ℚ) := by
    rw [qmod]
    push_cast
    ring
  rw [h, qmod_add_int_mul _ _ _ hb]

/-- A value already inside `[0, b)` is its own residue. -/
theorem qmod_eq_self (y b : ℚ) (h0 : 0 ≤ y) (h1 : y < b) : qmod y b = y := by
  have hb : 0 < b := lt_of_le_of_lt h0 h1
  have hfz : ⌊y / b⌋ = 0 := by
    rw [Int.floor_eq_zero_iff, Set.mem_Ico]
    exact ⟨div_nonneg h0 (le_of_lt hb), (div_lt_one hb).mpr h1⟩
  rw [qmod, hfz]
  simp

/-- On nonnegative arguments the C `fmod` agrees with the mathematical
modulo. -/
theorem fmodQ_eq_qmod_of_nonneg (a b : ℚ) (h0 : 0 ≤ a) (hb : 0 < b) :
    fmodQ a b = qmod a b := by
  rw [fmodQ, qmod, truncQ, if_pos]
  exact div_nonneg h0 (le_of_lt hb)

/-- With a zero vertical minimum, one light step is the plain modular
decrement by `4.5 × dt`. -/
theorem updateLightY_zeroMin (B : LightBounds) (dt y : ℚ)
    (hmin : B.minB 1 = 0) (hy0 : 0 ≤ y) (hy1 : y < B.maxB 1)
    (hdt : 0 ≤ dt) (hs : (9/2) * dt ≤ B.maxB 1) :
    updateLightY B dt y = qmod (y - (9/2) * dt) (B.maxB 1) := by
  have hm : 0 < B.maxB 1 := lt_of_le_of_lt hy0 hy1
  rw [updateLightY, hmin]
  have harg : y + (-(9/2) * dt) - 0 + B.maxB 1 =
      (y - (9/2) * dt) + B.maxB 1 := by ring
  rw [harg, add_zero]
  rw [fmodQ_eq_qmod_of_nonneg _ _ (by linarith) hm]
  exact qmod_add_self _ _ (ne_of_gt hm)

/-- With a zero vertical minimum, `N` light steps amount to one modular
reduction of the total decrement, and the result stays in `[0, max)`. -/
theorem updateLightY_iterate (B : LightBounds) (dt : ℚ) (N : ℕ) (y : ℚ)
    (hmin : B.minB 1 = 0) (hdt : 0 ≤ dt) (hs : (9/2) * dt ≤ B.maxB 1)
    (hy0 : 0 ≤ y) (hy1 : y < B.maxB 1) :
    (updateLightY B dt)^[N] y =
      qmod (y - (9/2) * dt * (N : ℚ)) (B.maxB 1) ∧
    0 ≤ (updateLightY B dt)^[N] y ∧
    (updateLightY B dt)^[N] y < B.maxB 1 := by
  induction N generalizing y hy0 hy1 with
  | zero =>
      refine ⟨?_, hy0, hy1⟩
      simp only [Function.iterate_zero, id_eq, Nat.cast_zero, mul_zero,
        sub_zero]
      exact (qmod_eq_self y _ hy0 hy1).symm
  | succ n ih =>
      have hm : 0 < B.maxB 1 := lt_of_le_of_lt hy0 hy1
      have hstep : updateLightY B dt y = qmod (y - (9/2) * dt) (B.maxB 1) :=
        updateLightY_zeroMin B dt y hmin hy0 hy1 hdt hs
      have hb := qmod_nonneg_lt (y - (9/2) * dt) (B.maxB 1) hm
      rw [Function.iterate_succ_apply, hstep]
      obtain ⟨ih1, ih2, ih3⟩ := ih (qmod (y - (9/2) * dt) (B.maxB 1)) hb.1 hb.2
      refine ⟨?_, ih2, ih3⟩
      rw [ih1, qmod_sub_qmod _ _ _ (ne_of_gt hm)]
      congr 1
      push_cast
      ring

/-- Iterating the per-light update only iterates the vertical map. -/
theorem updateLight_iterate (B : LightBounds) (dt : ℚ) (N : ℕ)
    (l : PointLight) :
    (updateLight B dt)^[N] l =
      { l with Position :=
          { l.Position with y := (updateLightY B dt)^[N] l.Position.y } } := by
  induction N generalizing l with
  | zero => rfl
  | succ n ih =>
      rw [Function.iterate_succ_apply, Function.iterate_succ_apply, ih]
      rfl

/-- Iterating the buffer update maps the iterated per-light update. -/
theorem UpdateLights_iterate (B : LightBounds) (dt : ℚ) (N : ℕ)
    (ls : List PointLight) :
    (UpdateLights B dt)^[N] ls = ls.map ((updateLight B dt)^[N]) := by
  induction N generalizing ls with
  | zero => simp
  | succ n ih =>
      rw [Function.iterate_succ_apply, ih, UpdateLights, List.map_map,
        ← Function.iterate_succ]

/-- `lookup` distributes over list append. -/
theorem lookup_append (l₁ l₂ : List (String × GLShaderProgram)) (k : String) :
    (l₁ ++ l₂).lookup k = ((l₁.lookup k).orElse fun _ => l₂.lookup k) := by
  induction l₁ with
  | nil => simp [List.lookup]
  | cons e rest ih =>
      obtain ⟨k0, v0⟩ := e
      by_cases hk : k = k0
      · subst hk
        simp [List.lookup]
      · have hbeq : (k == k0) = false := beq_eq_false_iff_ne.mpr hk
        simp [List.lookup, hbeq, ih]

/-- A successful `lookup` exhibits a member of the association list. -/
theorem lookup_mem (l : List (String × GLShaderProgram)) (k : String)
    (v : GLShaderProgram) (h : l.lookup k = some v) : (k, v) ∈ l := by
  induction l with
  | nil => simp at h
  | cons e rest ih =>
      obtain ⟨k0, v0⟩ := e
      rw [List.lookup] at h
      by_cases hk : k = k0
      · subst hk
        simp at h
        subst h
        exact List.mem_cons_self _ _
      · have hbeq : (k == k0) = false := beq_eq_false_iff_ne.mpr hk
        simp [hbeq] at h
        exact List.mem_cons_of_mem _ (ih h)

/-- The compile loop looked up through an arbitrary starting cache: an
existing entry always survives, otherwise the first declaration carrying the
name wins. -/
theorem compilePrograms_foldl_lookup (decls : List ProgramDecl)
    (cache : List (String × GLShaderProgram)) (name : String) :
    ((decls.foldl (fun c d => tryEmplace c d.name (compileProgram d))
        cache).lookup name) =
      ((cache.lookup name).orElse fun _ =>
        (decls.find? (fun d => d.name == name)).map compileProgram) := by
  induction decls generalizing cache with
  | nil => simp
  | cons d rest ih =>
      rw [List.foldl_cons, ih]
      by_cases hn : d.name = name
      · subst hn
        by_cases hs : (cache.lookup d.name).isSome
        · rw [tryEmplace, if_pos hs]
          obtain ⟨v, hv⟩ := Option.isSome_iff_exists.mp hs
          simp [hv, List.find?]
        · rw [tryEmplace, if_neg hs]
          rw [lookup_append]
          have hnone : cache.lookup d.name = none :=
            Option.not_isSome_iff_eq_none.mp hs
          simp [hnone, List.lookup, List.find?]
      · have hbeq : (d.name == name) = false := beq_eq_false_iff_ne.mpr hn
        have hbeq' : (name == d.name) = false :=
          beq_eq_false_iff_ne.mpr (fun h => hn h.symm)
        by_cases hs : (cache.lookup d.name).isSome
        · rw [tryEmplace, if_pos hs]
          simp [List.find?, hbeq]
        · rw [tryEmplace, if_neg hs]
          rw [lookup_append]
          cases hc : cache.lookup name <;>
            simp [hc, List.lookup, List.find?, hbeq, hbeq']

/-- Whatever survives the `Shutdown` deletion loop was live before it. -/
theorem mem_of_foldl_DeleteProgram (entries : List (String × GLShaderProgram))
    (lv : List GLShaderProgram) (x : GLShaderProgram)
    (hx : x ∈ entries.foldl (fun l e => DeleteProgram l e.2) lv) : x ∈ lv := by
  induction entries generalizing lv with
  | nil => simpa using hx
  | cons e rest ih =>
      rw [List.foldl_cons] at hx
      have hmem := ih (DeleteProgram lv e.2) hx
      rw [DeleteProgram] at hmem
      exact (List.mem_filter.mp hmem).1

/-- Every program the deletion loop visits is gone from the live store. -/
theorem foldl_DeleteProgram_releases
    (entries : List (String × GLShaderProgram))
    (lv : List GLShaderProgram) (p : GLShaderProgram)
    (hp : p ∈ entries.map Prod.snd) :
    p ∉ entries.foldl (fun l e => DeleteProgram l e.2) lv := by
  induction entries generalizing lv with
  | nil => simp at hp
  | cons e rest ih =>
      rw [List.map_cons, List.mem_cons] at hp
      rw [List.foldl_cons]
      rcases hp with hp | hp
      · subst hp
        intro hmem
        have hlv := mem_of_foldl_DeleteProgram rest _ _ hmem
        rw [DeleteProgram, List.mem_filter] at hlv
        have hne := hlv.2
        simp at hne
      · exact ih (DeleteProgram lv e.2) hp

/-- Ordering principle for event positions: if `P` never holds in the tail
`B` and `Q` never holds in the head `A`, a `P`-position precedes every
`Q`-position. -/
theorem append_pos_lt {α : Type} (A B : List α) (P Q : α → Bool)
    (hPB : ∀ e ∈ B, P e = false) (hQA : ∀ e ∈ A, Q e = false)
    (i j : Fin (A ++ B).length) (hi : P ((A ++ B).get i) = true)
    (hj : Q ((A ++ B).get j) = true) : i < j := by
  have hiA : i.val < A.length := by
    by_contra hc
    push_neg at hc
    have hlt : i.val - A.length < B.length := by
      have hL := lt_of_lt_of_eq i.isLt (List.length_append A B)
      omega
    have hge : (A ++ B).get i = B[i.val - A.length] := by
      rw [List.get_eq_getElem, List.getElem_append_right hc]
    have hmem : B[i.val - A.length] ∈ B := List.getElem_mem hlt
    have hPf := hPB _ hmem
    rw [hge, hPf] at hi
    exact Bool.noConfusion hi
  have hjB : A.length ≤ j.val := by
    by_contra hc
    push_neg at hc
    have hge : (A ++ B).get j = A[j.val] := by
      rw [List.get_eq_getElem, List.getElem_append_left hc]
    have hmem : A[j.val] ∈ A := List.getElem_mem hc
    have hQf := hQA _ hmem
    rw [hge, hQf] at hj
    exact Bool.noConfusion hj
  exact Fin.lt_def.mpr (lt_of_lt_of_le hiA hjB)

/-- `append_pos_lt` for a trace given with its decomposition as an
equation. -/
theorem append_pos_lt_of_eq {α : Type} (t A B : List α) (ht : t = A ++ B)
    (P Q : α → Bool) (hPB : ∀ e ∈ B, P e = false)
    (hQA : ∀ e ∈ A, Q e = false) (i j : Fin t.length)
    (hi : P (t.get i) = true) (hj : Q (t.get j) = true) : i < j := by
  subst ht
  exact append_pos_lt A B P Q hPB hQA i j hi hj

/-- The mesh-loop submissions carry the pass tag of their invocation: no
dispatch, draws tagged with the pass, uniforms only outside the depth
pass. -/
theorem mem_renderMeshEvents (dp : Bool) (mi ji : ℕ) (e : GEvent)
    (he : e ∈ renderMeshEvents dp mi ji) :
    e.isDispatch = false ∧ (e.isDepthDraw = true → dp = true) ∧
    (e.isShadingDraw = true → dp = false) ∧
    (e.isSetUniform = true → dp = false) := by
  cases dp
  · simp [renderMeshEvents] at he
    rcases he with rfl | rfl | rfl | rfl | rfl | rfl | rfl <;>
      refine ⟨rfl, ?_, ?_, ?_⟩ <;> intro h <;>
        first
        | rfl
        | exact Bool.noConfusion h
  · simp [renderMeshEvents] at he
    rcases he with rfl | rfl | rfl <;>
      refine ⟨rfl, ?_, ?_, ?_⟩ <;> intro h <;>
        first
        | rfl
        | exact Bool.noConfusion h

/-- Per-entry submissions: no dispatch, draws tagged with the pass, and in
the depth pass the only uniform ever set is the model transform. -/
theorem mem_renderModelEvents (mi : ℕ) (m : Model) (dp : Bool) (e : GEvent)
    (he : e ∈ renderModelEvents mi m dp) :
    e.isDispatch = false ∧ (e.isDepthDraw = true → dp = true) ∧
    (e.isShadingDraw = true → dp = false) ∧
    (dp = true → e.isSetUniform = true →
       e = GEvent.setUniform "modelMatrix") := by
  rw [renderModelEvents, List.mem_cons] at he
  rcases he with rfl | he
  · cases dp <;> decide
  · rw [List.mem_flatMap] at he
    obtain ⟨q, hq, he⟩ := he
    obtain ⟨h1, h2, h3, h4⟩ := mem_renderMeshEvents dp mi q.1 e he
    refine ⟨h1, h2, h3, ?_⟩
    intro hdp hsu
    rw [h4 hsu] at hdp
    exact Bool.noConfusion hdp

/-- Render-list submissions: no dispatch, draws tagged with the pass, and in
the depth pass the only uniform ever set is the model transform. -/
theorem mem_renderModels (rl : List Model) (dp : Bool) (e : GEvent)
    (he : e ∈ renderModels rl dp) :
    e.isDispatch = false ∧ (e.isDepthDraw = true → dp = true) ∧
    (e.isShadingDraw = true → dp = false) ∧
    (dp = true → e.isSetUniform = true →
       e = GEvent.setUniform "modelMatrix") := by
  rw [renderModels, List.mem_flatMap] at he
  obtain ⟨p, hp, he⟩ := he
  exact mem_renderModelEvents p.1 p.2 dp e he

/-- No dispatch is submitted after the culling dispatch. -/
theorem postCull_no_dispatch (rl : List Model) :
    ∀ e ∈ postCullEvents rl, e.isDispatch = false := by
  intro e he
  rw [postCullEvents] at he
  rcases List.mem_append.mp he with he | he
  · rcases List.mem_append.mp he with he | he
    · fin_cases he <;> rfl
    · exact (mem_renderModels rl false e he).1
  · fin_cases he <;> rfl

/-- No dispatch is submitted before the culling dispatch. -/
theorem preCull_no_dispatch (rl : List Model) :
    ∀ e ∈ preCullEvents rl, e.isDispatch = false := by
  intro e he
  rw [preCullEvents] at he
  rcases List.mem_append.mp he with he | he
  · rcases List.mem_append.mp he with he | he
    · fin_cases he <;> rfl
    · exact (mem_renderModels rl true e he).1
  · fin_cases he <;> rfl

/-- No shading-pass draw is submitted before the culling dispatch. -/
theorem preCull_no_shading (rl : List Model) :
    ∀ e ∈ preCullEvents rl, e.isShadingDraw = false := by
  intro e he
  rw [preCullEvents] at he
  rcases List.mem_append.mp he with he | he
  · rcases List.mem_append.mp he with he | he
    · fin_cases he <;> rfl
    · refine Bool.eq_false_iff.mpr ?_
      intro hs
      exact Bool.noConfusion ((mem_renderModels rl true e he).2.2.1 hs)
  · fin_cases he <;> rfl

/-- No depth-pass draw is submitted after the culling dispatch. -/
theorem postCull_no_depthDraw (rl : List Model) :
    ∀ e ∈ postCullEvents rl, e.isDepthDraw = false := by
  intro e he
  rw [postCullEvents] at he
  rcases List.mem_append.mp he with he | he
  · rcases List.mem_append.mp he with he | he
    · fin_cases he <;> rfl
    · refine Bool.eq_false_iff.mpr ?_
      intro hs
      exact Bool.noConfusion ((mem_renderModels rl false e he).2.1 hs)
  · fin_cases he <;> rfl

/-! ### Claim theorems -/

/-- Claim C10: each light-buffer `Update` modifies only the `y` coordinate of
each light position; `x`, `z`, the color and the radius are unchanged, and
the buffer keeps its length. -/
theorem UpdateLights_only_moves_y (B : LightBounds) (dt : ℚ)
    (ls : List PointLight) :
    (UpdateLights B dt ls).length = ls.length ∧
    ∀ (i : ℕ) (h : i < ls.length) (h' : i < (UpdateLights B dt ls).length),
      ((UpdateLights B dt ls).get ⟨i, h'⟩).Position.x =
          (ls.get ⟨i, h⟩).Position.x ∧
      ((UpdateLights B dt ls).get ⟨i, h'⟩).Position.z =
          (ls.get ⟨i, h⟩).Position.z ∧
      ((UpdateLights B dt ls).get ⟨i, h'⟩).Color = (ls.get ⟨i, h⟩).Color ∧
      ((UpdateLights B dt ls).get ⟨i, h'⟩).RadiusAndPadding =
          (ls.get ⟨i, h⟩).RadiusAndPadding := by
  refine ⟨by simp [UpdateLights], ?_⟩
  intro i h h'
  simp [UpdateLights, List.get_eq_getElem, updateLight]

/-- Witness for C10 at a concrete one-light buffer. -/
theorem UpdateLights_only_moves_y_witness :
    (UpdateLights demoBounds 1 [demoLight]).length = [demoLight].length ∧
    ((UpdateLights demoBounds 1 [demoLight]).get
        ⟨0, by simp [UpdateLights]⟩).Position.x =
      ([demoLight].get ⟨0, by simp⟩).Position.x ∧
    ((UpdateLights demoBounds 1 [demoLight]).get
        ⟨0, by simp [UpdateLights]⟩).Position.z =
      ([demoLight].get ⟨0, by simp⟩).Position.z ∧
    ((UpdateLights demoBounds 1 [demoLight]).get
        ⟨0, by simp [UpdateLights]⟩).Color =
      ([demoLight].get ⟨0, by simp⟩).Color ∧
    ((UpdateLights demoBounds 1 [demoLight]).get
        ⟨0, by simp [UpdateLights]⟩).RadiusAndPadding =
      ([demoLight].get ⟨0, by simp⟩).RadiusAndPadding := by
  exact ⟨(UpdateLights_only_moves_y demoBounds 1 [demoLight]).1,
    (UpdateLights_only_moves_y demoBounds 1 [demoLight]).2 0 (by simp)
      (by simp [UpdateLights])⟩

/-- Claim C7: after the light-buffer initialization every one of the `n`
lights has its position componentwise within the bounds (for uniform samples
in `[0,1)` per axis), every color channel in `[1, 2)`, and radius exactly
`30`. -/
theorem setupLightStorageBuffer_ranges (B : LightBounds) (n : ℕ)
    (posU colU : ℕ → Fin 3 → ℚ)
    (hB : ∀ i, B.minB i ≤ B.maxB i)
    (hpos : ∀ k i, 0 ≤ posU k i ∧ posU k i < 1)
    (hcol : ∀ k i, 0 ≤ colU k i ∧ colU k i < 1) :
    (setupLightStorageBuffer B n posU colU).length = n ∧
    ∀ l ∈ setupLightStorageBuffer B n posU colU,
      (B.minB 0 ≤ l.Position.x ∧ l.Position.x ≤ B.maxB 0) ∧
      (B.minB 1 ≤ l.Position.y ∧ l.Position.y ≤ B.maxB 1) ∧
      (B.minB 2 ≤ l.Position.z ∧ l.Position.z ≤ B.maxB 2) ∧
      (1 ≤ l.Color.x ∧ l.Color.x < 2) ∧
      (1 ≤ l.Color.y ∧ l.Color.y < 2) ∧
      (1 ≤ l.Color.z ∧ l.Color.z < 2) ∧
      l.Color.w = 1 ∧
      l.RadiusAndPadding.w = 30 := by
  refine ⟨by simp [setupLightStorageBuffer], ?_⟩
  intro l hl
  simp only [setupLightStorageBuffer, List.mem_map, List.mem_range] at hl
  obtain ⟨k, -, rfl⟩ := hl
  simp only [mkLight, RandomPosition]
  refine ⟨?_, ?_, ?_, ?_, ?_, ?_, trivial, trivial⟩
  · exact unit_affine_bounds (hB 0) (hpos k 0).1 (hpos k 0).2
  · exact unit_affine_bounds (hB 1) (hpos k 1).1 (hpos k 1).2
  · exact unit_affine_bounds (hB 2) (hpos k 2).1 (hpos k 2).2
  · exact ⟨by linarith [(hcol k 0).1], by linarith [(hcol k 0).2]⟩
  · exact ⟨by linarith [(hcol k 1).1], by linarith [(hcol k 1).2]⟩
  · exact ⟨by linarith [(hcol k 2).1], by linarith [(hcol k 2).2]⟩

/-- Witness for C7 at concrete bounds and samples. -/
theorem setupLightStorageBuffer_ranges_witness :
    (setupLightStorageBuffer demoBounds 2 demoPosU demoColU).length = 2 ∧
    ∀ l ∈ setupLightStorageBuffer demoBounds 2 demoPosU demoColU,
      (demoBounds.minB 0 ≤ l.Position.x ∧ l.Position.x ≤ demoBounds.maxB 0) ∧
      (demoBounds.minB 1 ≤ l.Position.y ∧ l.Position.y ≤ demoBounds.maxB 1) ∧
      (demoBounds.minB 2 ≤ l.Position.z ∧ l.Position.z ≤ demoBounds.maxB 2) ∧
      (1 ≤ l.Color.x ∧ l.Color.x < 2) ∧
      (1 ≤ l.Color.y ∧ l.Color.y < 2) ∧
      (1 ≤ l.Color.z ∧ l.Color.z < 2) ∧
      l.Color.w = 1 ∧
      l.RadiusAndPadding.w = 30 := by
  refine setupLightStorageBuffer_ranges demoBounds 2 demoPosU demoColU ?_ ?_ ?_
  · intro i
    fin_cases i <;> norm_num [demoBounds]
  · intro k i
    norm_num [demoPosU]
  · intro k i
    norm_num [demoColU]

/-- Claim C9: `Init` aborts the process after logging when the graphics
context fails to load, and aborts when the light storage buffer was not
created; under either failure no pipeline state is reachable at all, and a
successful `Init` certifies both failures absent. -/
theorem Init_fail_fast (M : Type) (env : GLEnv) (B : LightBounds)
    (initLights : List PointLight) (cfg : Config) :
    (env.gladLoadOK = false →
       Init M env initLights cfg = Except.error "Failed to start GLAD." ∧
       ∀ s, ¬ Reachable M env B cfg s) ∧
    (env.gladLoadOK = true → env.genLightBuffer = 0 →
       Init M env initLights cfg =
         Except.error "Error: Forward+ light buffer has not been created." ∧
       ∀ s, ¬ Reachable M env B cfg s) ∧
    (∀ s, Init M env initLights cfg = Except.ok s →
       env.gladLoadOK = true ∧ env.genLightBuffer ≠ 0) := by
  refine ⟨?_, ?_, ?_⟩
  · intro hglad
    refine ⟨by simp [Init, hglad], ?_⟩
    intro s hs
    induction hs with
    | init ls s h => simp [Init, hglad] at h
    | update cam dt inp s hs ih => exact ih
    | initView cam s hs ih => exact ih
  · intro hglad hbuf
    refine ⟨by simp [Init, hglad, hbuf], ?_⟩
    intro s hs
    induction hs with
    | init ls s h => simp [Init, hglad, hbuf] at h
    | update cam dt inp s hs ih => exact ih
    | initView cam s hs ih => exact ih
  · intro s h
    rw [Init] at h
    split_ifs at h with h1 h2
    · exact ⟨by simpa using h1, h2⟩

/-- Witness for C9 at the three concrete environments. -/
theorem Init_fail_fast_witness :
    (Init ℕ envNoGlad [] cfg9 = Except.error "Failed to start GLAD." ∧
       ∀ s, ¬ Reachable ℕ envNoGlad demoBounds cfg9 s) ∧
    (Init ℕ envNoBuffer [] cfg9 =
       Except.error "Error: Forward+ light buffer has not been created." ∧
       ∀ s, ¬ Reachable ℕ envNoBuffer demoBounds cfg9 s) ∧
    (envOK.gladLoadOK = true ∧ envOK.genLightBuffer ≠ 0) := by
  exact ⟨(Init_fail_fast ℕ envNoGlad demoBounds [] cfg9).1 rfl,
    (Init_fail_fast ℕ envNoBuffer demoBounds [] cfg9).2.1 rfl rfl,
    (Init_fail_fast ℕ envOK demoBounds [] cfg9).2.2
      (initState ℕ envOK [] cfg9) rfl⟩

/-- Claim C3: a resize detected by `Update` recomputes the projection matrix,
writes the projection half of the shared UBO, updates the viewport and
resizes the depth framebuffer to the new dimensions, while the HDR
framebuffer keeps its old dimensions; with no resize detected, the projection
matrix, the projection half, the viewport and both framebuffers are all left
unchanged. -/
theorem Update_resize_behavior (M : Type) (B : LightBounds) (cam : Camera M)
    (dt : ℚ) (inp : UpdateInput) (s : RState M) :
    (inp.shouldResize = true →
       (Update M B cam dt inp s).projMatrix =
           some (cam.getProjMatrix inp.newW inp.newH) ∧
       (Update M B cam dt inp s).uboProj =
           some (cam.getProjMatrix inp.newW inp.newH) ∧
       (Update M B cam dt inp s).viewportW = inp.newW ∧
       (Update M B cam dt inp s).viewportH = inp.newH ∧
       (Update M B cam dt inp s).depthFBOW = inp.newW ∧
       (Update M B cam dt inp s).depthFBOH = inp.newH ∧
       (Update M B cam dt inp s).hdrFBOW = s.hdrFBOW ∧
       (Update M B cam dt inp s).hdrFBOH = s.hdrFBOH) ∧
    (inp.shouldResize = false →
       (Update M B cam dt inp s).projMatrix = s.projMatrix ∧
       (Update M B cam dt inp s).uboProj = s.uboProj ∧
       (Update M B cam dt inp s).viewportW = s.viewportW ∧
       (Update M B cam dt inp s).viewportH = s.viewportH ∧
       (Update M B cam dt inp s).depthFBOW = s.depthFBOW ∧
       (Update M B cam dt inp s).depthFBOH = s.depthFBOH ∧
       (Update M B cam dt inp s).hdrFBOW = s.hdrFBOW ∧
       (Update M B cam dt inp s).hdrFBOH = s.hdrFBOH) := by
  constructor <;> intro h <;> simp [Update, h]

/-- Witness for C3: one resize call and one no-resize call on a concrete
state. -/
theorem Update_resize_behavior_witness :
    ((Update ℕ demoBounds demoCamera 1 demoResize
        (initState ℕ envOK [] cfg9)).projMatrix =
       some (demoCamera.getProjMatrix demoResize.newW demoResize.newH) ∧
     (Update ℕ demoBounds demoCamera 1 demoResize
        (initState ℕ envOK [] cfg9)).uboProj =
       some (demoCamera.getProjMatrix demoResize.newW demoResize.newH) ∧
     (Update ℕ demoBounds demoCamera 1 demoResize
        (initState ℕ envOK [] cfg9)).viewportW = demoResize.newW ∧
     (Update ℕ demoBounds demoCamera 1 demoResize
        (initState ℕ envOK [] cfg9)).viewportH = demoResize.newH ∧
     (Update ℕ demoBounds demoCamera 1 demoResize
        (initState ℕ envOK [] cfg9)).depthFBOW = demoResize.newW ∧
     (Update ℕ demoBounds demoCamera 1 demoResize
        (initState ℕ envOK [] cfg9)).depthFBOH = demoResize.newH ∧
     (Update ℕ demoBounds demoCamera 1 demoResize
        (initState ℕ envOK [] cfg9)).hdrFBOW =
       (initState ℕ envOK [] cfg9).hdrFBOW ∧
     (Update ℕ demoBounds demoCamera 1 demoResize
        (initState ℕ envOK [] cfg9)).hdrFBOH =
       (initState ℕ envOK [] cfg9).hdrFBOH) ∧
    ((Update ℕ demoBounds demoCamera 1 demoNoResize
        (initState ℕ envOK [] cfg9)).projMatrix =
       (initState ℕ envOK [] cfg9).projMatrix ∧
     (Update ℕ demoBounds demoCamera 1 demoNoResize
        (initState ℕ envOK [] cfg9)).uboProj =
       (initState ℕ envOK [] cfg9).uboProj ∧
     (Update ℕ demoBounds demoCamera 1 demoNoResize
        (initState ℕ envOK [] cfg9)).viewportW =
       (initState ℕ envOK [] cfg9).viewportW ∧
     (Update ℕ demoBounds demoCamera 1 demoNoResize
        (initState ℕ envOK [] cfg9)).viewportH =
       (initState ℕ envOK [] cfg9).viewportH ∧
     (Update ℕ demoBounds demoCamera 1 demoNoResize
        (initState ℕ envOK [] cfg9)).depthFBOW =
       (initState ℕ envOK [] cfg9).depthFBOW ∧
     (Update ℕ demoBounds demoCamera 1 demoNoResize
        (initState ℕ envOK [] cfg9)).depthFBOH =
       (initState ℕ envOK [] cfg9).depthFBOH ∧
     (Update ℕ demoBounds demoCamera 1 demoNoResize
        (initState ℕ envOK [] cfg9)).hdrFBOW =
       (initState ℕ envOK [] cfg9).hdrFBOW ∧
     (Update ℕ demoBounds demoCamera 1 demoNoResize
        (initState ℕ envOK [] cfg9)).hdrFBOH =
       (initState ℕ envOK [] cfg9).hdrFBOH) := by
  exact ⟨(Update_resize_behavior ℕ demoBounds demoCamera 1 demoResize
      (initState ℕ envOK [] cfg9)).1 rfl,
    (Update_resize_behavior ℕ demoBounds demoCamera 1 demoNoResize
      (initState ℕ envOK [] cfg9)).2 rfl⟩

/-- Claim C1 as stated is false: already the state produced by
`Init(width = 9, height = 9)` stores `workGroupsX = (9 + 9 % 8) / 8 = 1`,
while `ceil(9/8) = 2`. -/
theorem workGroups_ceil_counterexample :
    ∃ s : RState ℕ, Reachable ℕ envOK demoBounds cfg9 s ∧
      s.workGroupsX ≠ ceilDiv8 s.width := by
  refine ⟨initState ℕ envOK [] cfg9, Reachable.init [] _ rfl, ?_⟩
  decide

/-- Claim C1 (amended): in every reachable state the tile-grid dimensions
equal `((dim + dim % 8) mod 2^32) / 8` computed from the `Init` configuration
dimensions — a resize never recomputes them — and this quantity equals
`ceil(dim/8)` exactly for dimensions ending in `0` or `4..7` modulo `8`
(below the unsigned overflow threshold); `ceilDiv8` itself is the rational
ceiling. -/
theorem workGroups_invariant (M : Type) (env : GLEnv) (B : LightBounds)
    (cfg : Config) (s : RState M) (hs : Reachable M env B cfg s) :
    (s.workGroupsX = ((cfg.width + cfg.width % 8) % UINT32) / 8 ∧
     s.workGroupsY = ((cfg.height + cfg.height % 8) % UINT32) / 8) ∧
    (∀ w : ℕ, w + 7 < UINT32 →
       (((w + w % 8) % UINT32) / 8 = ceilDiv8 w ↔ w % 8 = 0 ∨ 4 ≤ w % 8)) ∧
    (∀ w : ℕ, (ceilDiv8 w : ℤ) = ⌈(w : ℚ) / 8⌉) := by
  refine ⟨?_, ?_, ceilDiv8_eq_ceil⟩
  · induction hs with
    | init ls s h =>
        rw [Init] at h
        split_ifs at h with h1 h2
        cases h
        exact ⟨rfl, rfl⟩
    | update cam dt inp s hs ih =>
        exact ⟨(Update_workGroups M B cam dt inp s).1.trans ih.1,
          (Update_workGroups M B cam dt inp s).2.trans ih.2⟩
    | initView cam s hs ih =>
        exact ih
  · intro w hw
    have h8 : w % 8 < 8 := Nat.mod_lt w (by norm_num)
    have hlt : w + w % 8 < UINT32 := by omega
    rw [Nat.mod_eq_of_lt hlt, ceilDiv8]
    omega

/-- Claim C2 as stated is false: one `Update(dt = 1)` step on a light at
`y = -19.5` (just above the vertical minimum `-20` of `demoBounds`, stepping
below it) yields `y = 146` — the code wraps with C `fmod` against the
modulus `max = 170` — while the claimed span-modulo wrap of the same
decrement yields `166`. -/
theorem UpdateLights_wrap_counterexample :
    (UpdateLights demoBounds 1 [demoLight]).map (fun l => l.Position.y) =
        [(146 : ℚ)] ∧
    specWrapY demoBounds 1 1 (-39/2) = 166 ∧
    (UpdateLights demoBounds 1 [demoLight]).map (fun l => l.Position.y) ≠
        [specWrapY demoBounds 1 1 (-39/2)] := by
  have htr : truncQ ((166 : ℚ) / 170) = 0 := by
    rw [truncQ, if_pos (by norm_num)]
    norm_num [Int.floor_eq_iff]
  have hfl : ⌊((-4 : ℚ)) / 190⌋ = -1 := by
    norm_num [Int.floor_eq_iff]
  have hminv : demoBounds.minB 1 = -20 := rfl
  have hmaxv : demoBounds.maxB 1 = 170 := rfl
  have hy : updateLightY demoBounds 1 (-39/2) = 146 := by
    rw [updateLightY, hminv, hmaxv]
    have harg : (-39/2 : ℚ) + (-(9/2) * 1) - -20 + 170 = 166 := by norm_num
    rw [harg, fmodQ, htr]
    norm_num
  have hspec : specWrapY demoBounds 1 1 (-39/2) = 166 := by
    rw [specWrapY, hminv, hmaxv]
    have harg : (-39/2 : ℚ) - 9/2 * 1 * ((1 : ℕ) : ℚ) - -20 = -4 := by
      push_cast
      norm_num
    rw [harg]
    have hspan : (170 : ℚ) - -20 = 190 := by norm_num
    rw [hspan, qmod, hfl]
    norm_num
  refine ⟨?_, hspec, ?_⟩
  · simp [UpdateLights, updateLight, demoLight, hy]
  · simp [UpdateLights, updateLight, demoLight, hy, hspec]

/-- Claim C2 (amended): each `Update` step applies
`y := fmod(y - 4.5*dt - min + max, max) + min` — C `fmod` with modulus
`max`, not the vertical span.  In the special case `min = 0` (where modulus
and span coincide) and for steps no larger than the span, `N` updates do
equal the initial value minus `4.5 × dt × N` wrapped by modulo arithmetic
against the span back into the bounds, and every light stays inside them. -/
theorem UpdateLights_wrap (B : LightBounds) (dt : ℚ) (N : ℕ)
    (ls : List PointLight) (hmin : B.minB 1 = 0) (hdt : 0 ≤ dt)
    (hs : (9/2) * dt ≤ B.maxB 1)
    (hin : ∀ l ∈ ls, 0 ≤ l.Position.y ∧ l.Position.y < B.maxB 1) :
    ((UpdateLights B dt)^[N] ls).map (fun l => l.Position.y) =
      ls.map (fun l => specWrapY B dt N l.Position.y) ∧
    ∀ l ∈ (UpdateLights B dt)^[N] ls,
      B.minB 1 ≤ l.Position.y ∧ l.Position.y < B.maxB 1 := by
  have hspec : ∀ y : ℚ, 0 ≤ y → y < B.maxB 1 →
      (updateLightY B dt)^[N] y = specWrapY B dt N y ∧
      0 ≤ (updateLightY B dt)^[N] y ∧
      (updateLightY B dt)^[N] y < B.maxB 1 := by
    intro y h0 h1
    obtain ⟨he, hb0, hb1⟩ := updateLightY_iterate B dt N y hmin hdt hs h0 h1
    refine ⟨?_, hb0, hb1⟩
    rw [he, specWrapY, hmin]
    simp
  rw [UpdateLights_iterate]
  constructor
  · rw [List.map_map]
    refine List.map_congr_left ?_
    intro l hl
    obtain ⟨h0, h1⟩ := hin l hl
    have h := (hspec l.Position.y h0 h1).1
    simp only [Function.comp_apply, updateLight_iterate]
    exact h
  · intro l hl
    rw [List.mem_map] at hl
    obtain ⟨l0, hl0, rfl⟩ := hl
    obtain ⟨h0, h1⟩ := hin l0 hl0
    have h := hspec l0.Position.y h0 h1
    rw [updateLight_iterate, hmin]
    exact ⟨h.2.1, h.2.2⟩

/-- Witness for the amended C2: two updates of step `dt = 2` on a light at
`y = 5` inside zero-based vertical bounds. -/
theorem UpdateLights_wrap_witness :
    ((UpdateLights zeroMinBounds 2)^[2] [midLight]).map
        (fun l => l.Position.y) =
      [midLight].map (fun l => specWrapY zeroMinBounds 2 2 l.Position.y) ∧
    ∀ l ∈ (UpdateLights zeroMinBounds 2)^[2] [midLight],
      zeroMinBounds.minB 1 ≤ l.Position.y ∧
      l.Position.y < zeroMinBounds.maxB 1 := by
  have hmax : zeroMinBounds.maxB 1 = 170 := rfl
  refine UpdateLights_wrap zeroMinBounds 2 2 [midLight] rfl (by norm_num) ?_ ?_
  · rw [hmax]
    norm_num
  · intro l hl
    rw [List.mem_singleton] at hl
    subst hl
    rw [hmax]
    refine ⟨by norm_num [midLight], by norm_num [midLight]⟩

/-- Claim C5 as stated is false: compiling two programs under the same name
leaves the first entry cached, not the most recently compiled one —
`std::map::try_emplace` never replaces. -/
theorem compilePrograms_replace_counterexample :
    (compilePrograms [demoProgA, demoProgB]).lookup "PBRShader" =
        some (compileProgram demoProgA) ∧
    (compilePrograms [demoProgA, demoProgB]).lookup "PBRShader" ≠
        some (compileProgram demoProgB) := by
  constructor <;> decide

/-- Claim C5 (amended): registration is idempotent per name with first-wins
semantics: after the compile loop every name maps to the first program
compiled under it; a later compilation under a cached name is ignored. -/
theorem compilePrograms_first_wins (decls : List ProgramDecl) (name : String) :
    (compilePrograms decls).lookup name =
      (decls.find? (fun d => d.name == name)).map compileProgram := by
  rw [compilePrograms, compilePrograms_foldl_lookup]
  simp [List.lookup]

/-- Claim C6 as stated is false: after `Shutdown` the cached name is still
found — the lookup returns the released program instead of failing with a
not-found outcome. -/
theorem Shutdown_get_counterexample :
    Get (Shutdown demoCacheState).cache "PBRShader" =
        some (compileProgram demoProgA) ∧
    Get (Shutdown demoCacheState).cache "PBRShader" ≠ none ∧
    compileProgram demoProgA ∉ (Shutdown demoCacheState).live := by
  refine ⟨by decide, by decide, by decide⟩

/-- Claim C6 (amended): `Shutdown` releases every program owned by the cache,
but the cache itself is untouched (`Shutdown` is `const`): a subsequent
lookup of a cached name still succeeds and hands back the entry whose GPU
program has been released — a use-after-free hazard, not a not-found
failure. -/
theorem Shutdown_releases_but_keeps_cache (st : CacheState) (name : String)
    (p : GLShaderProgram) :
    ((Shutdown st).cache = st.cache) ∧
    (∀ q ∈ st.cache.map Prod.snd, q ∉ (Shutdown st).live) ∧
    (Get (Shutdown st).cache name = some p →
       Get (Shutdown st).cache name ≠ none ∧ p ∉ (Shutdown st).live) := by
  refine ⟨rfl, ?_, ?_⟩
  · intro q hq
    exact foldl_DeleteProgram_releases st.cache st.live q hq
  · intro h
    refine ⟨by simp [h], ?_⟩
    have hmem : (name, p) ∈ st.cache := lookup_mem _ _ _ h
    have hval : p ∈ st.cache.map Prod.snd := by
      exact List.mem_map_of_mem Prod.snd hmem
    exact foldl_DeleteProgram_releases st.cache st.live p hval

/-- Witness for the amended C6 at a concrete one-entry cache. -/
theorem Shutdown_releases_but_keeps_cache_witness :
    ((Shutdown demoCacheState).cache = demoCacheState.cache) ∧
    (∀ q ∈ demoCacheState.cache.map Prod.snd,
       q ∉ (Shutdown demoCacheState).live) ∧
    (Get (Shutdown demoCacheState).cache "PBRShader" ≠ none ∧
       compileProgram demoProgA ∉ (Shutdown demoCacheState).live) := by
  obtain ⟨h1, h2, h3⟩ :=
    Shutdown_releases_but_keeps_cache demoCacheState "PBRShader"
      (compileProgram demoProgA)
  exact ⟨h1, h2, h3 (by decide)⟩

/-- Claim C4: in every `Render(scene)` trace, every depth-pass draw precedes
the light-culling compute dispatch, the dispatch precedes every shading-pass
draw, and the four passes always run to completion: depth framebuffer bind,
dispatch, HDR framebuffer bind and the post-process quad draw all occur. -/
theorem Render_pass_ordering (wgX wgY : ℕ) (rl : List Model)
    (i j : Fin (Render wgX wgY rl).length) :
    (((Render wgX wgY rl).get i).isDepthDraw = true →
       ((Render wgX wgY rl).get j).isDispatch = true → i < j) ∧
    (((Render wgX wgY rl).get i).isDispatch = true →
       ((Render wgX wgY rl).get j).isShadingDraw = true → i < j) ∧
    GEvent.bindFramebuffer "Depth FBO" ∈ Render wgX wgY rl ∧
    GEvent.dispatchCompute wgX wgY 1 ∈ Render wgX wgY rl ∧
    GEvent.bindFramebuffer "HDR FBO" ∈ Render wgX wgY rl ∧
    GEvent.drawArraysQuad ∈ Render wgX wgY rl := by
  refine ⟨?_, ?_, ?_, ?_, ?_, ?_⟩
  · intro hi hj
    refine append_pos_lt (preCullEvents rl)
      (GEvent.dispatchCompute wgX wgY 1 :: postCullEvents rl)
      GEvent.isDepthDraw GEvent.isDispatch ?_ (preCull_no_dispatch rl)
      i j hi hj
    intro e he
    rcases List.mem_cons.mp he with rfl | he
    · rfl
    · exact postCull_no_depthDraw rl e he
  · intro hi hj
    refine append_pos_lt_of_eq (Render wgX wgY rl)
      (preCullEvents rl ++ [GEvent.dispatchCompute wgX wgY 1])
      (postCullEvents rl)
      (by rw [Render, List.append_assoc]; rfl) GEvent.isDispatch
      GEvent.isShadingDraw (postCull_no_dispatch rl) ?_ i j hi hj
    intro e he
    rcases List.mem_append.mp he with he | he
    · exact preCull_no_shading rl e he
    · rcases List.mem_singleton.mp he with rfl
      rfl
  · simp [Render, preCullEvents]
  · simp [Render]
  · simp [Render, postCullEvents]
  · simp [Render, postCullEvents]

/-- Witness for C4 on a one-entry render list: the depth draw sits at
position 6, the dispatch at 17 and the shading draw at 34 of the 45-event
trace. -/
theorem Render_pass_ordering_witness :
    ((Render 1 1 [demoModel]).get ⟨6, by decide⟩).isDepthDraw = true ∧
    ((Render 1 1 [demoModel]).get ⟨17, by decide⟩).isDispatch = true ∧
    ((Render 1 1 [demoModel]).get ⟨34, by decide⟩).isShadingDraw = true ∧
    (⟨6, by decide⟩ : Fin (Render 1 1 [demoModel]).length) < ⟨17, by decide⟩ ∧
    (⟨17, by decide⟩ : Fin (Render 1 1 [demoModel]).length) < ⟨34, by decide⟩ ∧
    GEvent.drawArraysQuad ∈ Render 1 1 [demoModel] := by
  refine ⟨by decide, by decide, by decide, ?_, ?_, ?_⟩
  · exact (Render_pass_ordering 1 1 [demoModel] ⟨6, by decide⟩
      ⟨17, by decide⟩).1 (by decide) (by decide)
  · exact (Render_pass_ordering 1 1 [demoModel] ⟨17, by decide⟩
      ⟨34, by decide⟩).2.1 (by decide) (by decide)
  · exact (Render_pass_ordering 1 1 [demoModel] ⟨6, by decide⟩
      ⟨17, by decide⟩).2.2.2.2.2

/-- Claim C8 as stated is false for a render-list entry without meshes (a
model whose load failed): the shading pass processes the entry but sets none
of the four material uniforms, because they are set inside the mesh loop. -/
theorem renderModels_material_counterexample :
    renderModels [meshlessModel] false = [GEvent.setUniform "modelMatrix"] ∧
    GEvent.setUniform "albedo" ∉ renderModels [meshlessModel] false ∧
    GEvent.setUniform "albedo" ∉ Render 1 1 [meshlessModel] := by
  refine ⟨by decide, by decide, by decide⟩

/-- Claim C8 (amended): in the depth pass the only uniform ever set is the
model transform — no material uniform is set for any entry — and every entry
receives its model-transform uniform; in the shading pass all four material
uniforms are set for every entry owning at least one mesh (they are set per
mesh). -/
theorem renderModels_material_uniforms (rl : List Model) (k : ℕ) (m : Model)
    (hm : m.meshes ≠ []) :
    (∀ e ∈ renderModels rl true, e.isSetUniform = true →
       e = GEvent.setUniform "modelMatrix") ∧
    GEvent.setUniform "modelMatrix" ∈ renderModelEvents k m true ∧
    (GEvent.setUniform "albedo" ∈ renderModelEvents k m false ∧
     GEvent.setUniform "metallic" ∈ renderModelEvents k m false ∧
     GEvent.setUniform "ao" ∈ renderModelEvents k m false ∧
     GEvent.setUniform "roughness" ∈ renderModelEvents k m false) := by
  refine ⟨?_, ?_, ?_⟩
  · intro e he hsu
    exact (mem_renderModels rl true e he).2.2.2 rfl hsu
  · rw [renderModelEvents]
    exact List.mem_cons_self _ _
  · have hlen : 0 < m.meshes.enum.length := by
      rw [List.enum_length]
      exact List.length_pos.mpr hm
    obtain ⟨q, hq⟩ :=
      List.exists_mem_of_ne_nil _ (List.length_pos.mp hlen)
    refine ⟨?_, ?_, ?_, ?_⟩ <;>
      · rw [renderModelEvents]
        apply List.mem_cons_of_mem
        rw [List.mem_flatMap]
        exact ⟨q, hq, by simp [renderMeshEvents]⟩

/-- Witness for the amended C8 at a one-mesh entry. -/
theorem renderModels_material_uniforms_witness :
    (∀ e ∈ renderModels [demoModel] true, e.isSetUniform = true →
       e = GEvent.setUniform "modelMatrix") ∧
    GEvent.setUniform "modelMatrix" ∈ renderModelEvents 0 demoModel true ∧
    (GEvent.setUniform "albedo" ∈ renderModelEvents 0 demoModel false ∧
     GEvent.setUniform "metallic" ∈ renderModelEvents 0 demoModel false ∧
     GEvent.setUniform "ao" ∈ renderModelEvents 0 demoModel false ∧
     GEvent.setUniform "roughness" ∈ renderModelEvents 0 demoModel false) := by
  exact renderModels_material_uniforms [demoModel] 0 demoModel (by decide)

/-- Witness for the amended C1 at a state reached through a resize. -/
theorem workGroups_invariant_witness :
    ((Update ℕ demoBounds demoCamera 1 demoResize
        (initState ℕ envOK [] cfg9)).workGroupsX =
       ((cfg9.width + cfg9.width % 8) % UINT32) / 8 ∧
     (Update ℕ demoBounds demoCamera 1 demoResize
        (initState ℕ envOK [] cfg9)).workGroupsY =
       ((cfg9.height + cfg9.height % 8) % UINT32) / 8) ∧
    (∀ w : ℕ, w + 7 < UINT32 →
       (((w + w % 8) % UINT32) / 8 = ceilDiv8 w ↔ w % 8 = 0 ∨ 4 ≤ w % 8)) ∧
    (∀ w : ℕ, (ceilDiv8 w : ℤ) = ⌈(w : ℚ) / 8⌉) := by
  exact workGroups_invariant ℕ envOK demoBounds cfg9 _
    (Reachable.update demoCamera 1 demoResize _ (Reachable.init [] _ rfl))

end RenderSystem
